import Mathlib

/-!
# Process introspection facade (`pkg/syscall/process/process.go`)

A shallow embedding of the access-mask decoder (`DesiredAccess.String`,
`DesiredAccess.Flags`) and of the thin wrappers around the operating system calls
(`QueryInfo`, `ReadMemory`, `ReadMemoryUnicode`, `GetParentPID`, `IsAlive`).

Conventions of the embedding:

* Go's `uint32`, `uintptr`, `byte` and `uint16` values are natural numbers; where
  the source arithmetic can wrap, the wrap is written `% 2 ^ 32`.
* A Go function body either returns or the runtime panics; `Outcome` records which.
  Both panics of the source are modelled: the index out of range of `&buf[0]` on an
  empty slice and the length out of range of `make` on a size it refuses.
* A system call is an argument of the model: a function from the values the source
  passes to the values the call leaves behind (return register, last error, bytes
  stored through the pointers it was given).
* The `for` loop of `Flags` is driven by fuel; running out of fuel is `none`.
-/

namespace Process

/-! ## Access masks -/

/-- Go's `string` type. The method `DesiredAccess.String` below takes the short
name inside its own namespace, so the type gets one that is never shadowed. -/
abbrev GoString := String

/-- DesiredAccess is the `uint32` alias for process access modifiers. -/
abbrev DesiredAccess := Nat

def Terminate : DesiredAccess := 0x0001
def CreateThread : DesiredAccess := 0x0002
def VMOperation : DesiredAccess := 0x0008
def VMRead : DesiredAccess := 0x0010
def VMWrite : DesiredAccess := 0x0020
def DupHandle : DesiredAccess := 0x0040
def CreateProcess : DesiredAccess := 0x0080
def SetQuota : DesiredAccess := 0x0100
def SetInformation : DesiredAccess := 0x0200
def QueryInformation : DesiredAccess := 0x0400
def SuspendResume : DesiredAccess := 0x0800
def QueryLimitedInformation : DesiredAccess := 0x1000
def AllAccess : DesiredAccess := 0x000F0000 ||| 0x00100000 ||| 0xFFFF

/-- String is the `switch` of `DesiredAccess.String`: the cases are tried in the
order of the source and the first equal constant decides. -/
def DesiredAccess.String (access : DesiredAccess) : GoString :=
  if access = Terminate then "TERMINATE"
  else if access = CreateThread then "CREATE_THREAD"
  else if access = VMOperation then "VM_OPERATION"
  else if access = VMWrite then "VM_WRITE"
  else if access = VMRead then "VM_READ"
  else if access = DupHandle then "DUP_HANDLE"
  else if access = CreateProcess then "CREATE_PROCESS"
  else if access = SetQuota then "SET_QUOTA"
  else if access = QueryInformation then "QUERY_INFORMATION"
  else if access = QueryLimitedInformation then "QUERY_LIMITED_INFORMATION"
  else if access = SetInformation then "SET_INFORMATION"
  else if access = SuspendResume then "SUSPEND_RESUME"
  else if access = AllAccess then "ALL_ACCESS"
  else "UNKNOWN"

def maxFlags : Nat := 0x2460

/-- The loop `for mask := VMRead; mask <= maxFlags; mask *= 2` of `Flags`, entered
with the current `mask` and the slice built so far. One unit of fuel pays for one
evaluation of the loop condition; `mask *= 2` is `uint32` multiplication. -/
def flagsLoop : Nat → DesiredAccess → DesiredAccess → List GoString → Option (List GoString)
  | 0, _, _, _ => none
  | fuel + 1, access, mask, flags =>
    if mask ≤ maxFlags then
      flagsLoop fuel access ((mask * 2) % 2 ^ 32)
        (if access &&& mask ≠ 0 then flags ++ [DesiredAccess.String mask] else flags)
    else
      some flags

/-- Flags converts the desired access mask to the slice of string values. -/
def DesiredAccess.Flags (fuel : Nat) (access : DesiredAccess) : Option (List GoString) :=
  let flags : List GoString := []
  if access = AllAccess then
    some [DesiredAccess.String AllAccess]
  else
    let flags := if access &&& Terminate ≠ 0 then flags ++ [DesiredAccess.String Terminate] else flags
    let flags := if access &&& CreateThread ≠ 0 then flags ++ [DesiredAccess.String CreateThread] else flags
    let flags := if access &&& VMOperation ≠ 0 then flags ++ [DesiredAccess.String VMOperation] else flags
    flagsLoop fuel access VMRead flags

/-- The twelve single-bit access rights, in the order of their declaration. -/
def singleBits : List DesiredAccess :=
  [Terminate, CreateThread, VMOperation, VMRead, VMWrite, DupHandle, CreateProcess,
   SetQuota, SetInformation, QueryInformation, SuspendResume, QueryLimitedInformation]

/-- The thirteen declared constants: the twelve single bits and `AllAccess`. -/
def enumerated : List DesiredAccess := singleBits ++ [AllAccess]

/-- Bitwise OR of a list of masks. -/
def orAll (l : List DesiredAccess) : DesiredAccess := l.foldr (· ||| ·) 0

/-- The masks the loop of `Flags` visits, in order: `VMRead` doubled until the
value exceeds `maxFlags`. -/
def loopMasks : List DesiredAccess :=
  [0x10, 0x20, 0x40, 0x80, 0x100, 0x200, 0x400, 0x800, 0x1000, 0x2000]

/-- All masks `Flags` tests against its argument, in order. -/
def testedMasks : List DesiredAccess := [Terminate, CreateThread, VMOperation] ++ loopMasks

/-! ## Go runtime values -/

/-- Outcome of running a Go function body: it returns its results, or the runtime
panics (an index out of range, a slice length out of range) and nothing is returned. -/
inductive Outcome (α : Type) where
  | returned (a : α)
  | panicked (msg : GoString)
  deriving DecidableEq, Repr

/-- The non-nil `error` values the functions of this file build. A nil `error` is
`none` of `Option GoError`. -/
inductive GoError where
  /-- The shared value `errors.ErrNeedsReallocateBuffer`. -/
  | ErrNeedsReallocateBuffer
  /-- A fresh error made by `fmt.Errorf`, with its formatted message. -/
  | Errorf (msg : GoString)
  /-- The result of `os.NewSyscallError(name, err)` for the never-nil last error
  that `LazyProc.Call` hands back, kept as its error number. -/
  | SyscallError (syscallName : GoString) (err : Nat)
  deriving DecidableEq, Repr

/-- One upper-case hexadecimal digit, as the verb `%X` prints it. -/
def hexDigit (d : Nat) : Char :=
  if d < 10 then Char.ofNat (48 + d) else Char.ofNat (55 + d)

/-- Digits of `n` in base sixteen, most significant first; `fuel` bounds the number
of digits and `n + 1` always suffices. -/
def hexDigits : Nat → Nat → List Char
  | 0, _ => []
  | fuel + 1, n =>
    if n < 16 then [hexDigit n] else hexDigits fuel (n / 16) ++ [hexDigit (n % 16)]

/-- The text `fmt` produces for the verb `%X` applied to an unsigned integer. -/
def formatX (n : Nat) : GoString := String.mk (hexDigits (n + 1) n)

/-- Value of one hexadecimal digit character. -/
def hexValue (c : Char) : Nat :=
  if c.toNat < 58 then c.toNat - 48 else c.toNat - 55

/-- Reads a hexadecimal numeral, most significant digit first. -/
def parseHex (cs : List Char) : Nat := cs.foldl (fun acc c => 16 * acc + hexValue c) 0

/-- The limit of the Go runtime that the allocations of this file can meet. -/
structure GoRuntime where
  /-- Number of bytes above which the runtime refuses to allocate one object
  (`maxAlloc`; `1 << 48` on 64-bit Windows). -/
  maxAlloc : Nat

/-- The allocation `make([]T, len)` for a `uintptr` length and an element type of
`elemSize` bytes, as the runtime function `makeslice` decides it: the length is
converted to `int`, and the call panics when the converted length is negative (the
length is `1 << 63` or more) or when the slice would need more than `maxAlloc` bytes;
otherwise it returns `len` zero elements. Exhaustion of memory below that limit ends
the process and is not part of the model. -/
def makeslice (rt : GoRuntime) (elemSize len : Nat) : Outcome (List Nat) :=
  if 2 ^ 63 ≤ len ∨ rt.maxAlloc < elemSize * len then
    .panicked "runtime error: makeslice: len out of range"
  else
    .returned (List.replicate len 0)

/-- Store through a pointer to the first element of a byte slice: `data` overwrites
the slice from its start. The slice keeps its length; bytes that would land past its
end are not part of it. -/
def storeBytes (buf data : List Nat) : List Nat :=
  data.take buf.length ++ buf.drop data.length

/-- The memory of a `[]uint16`, byte by byte (little-endian, as on every Windows
target). -/
def uint16sToBytes : List Nat → List Nat
  | [] => []
  | u :: us => (u % 256) :: (u / 256 % 256) :: uint16sToBytes us

/-- The `[]uint16` view of a block of bytes (little-endian). -/
def bytesToUint16s : List Nat → List Nat
  | lo :: hi :: rest => (lo + 256 * hi) :: bytesToUint16s rest
  | _ => []

/-- Handle is `handle.Handle`, a `uintptr`. -/
abbrev Handle := Nat

/-- InfoClassFlags defines the type for process's info class (`uint8`). -/
abbrev InfoClassFlags := Nat

def BasicInformationClass : InfoClassFlags := 0
def HandleInformationClass : InfoClassFlags := 51

def procStatusStillActive : Nat := 259

/-- The constants of package `winerrno` that this file compares return values with.
Their declarations are not part of the file, so they are parameters of the model.
The conversion `winerrno.Errno(errno)` keeps the value. -/
structure Winerrno where
  Success : Nat
  StatusInfoLengthMismatch : Nat
  StatusBufferTooSmall : Nat

/-- What one call of `NtQueryInformationProcess` leaves behind. -/
structure NtQueryResult where
  /-- First return value of `Call`: the status of the call. -/
  r1 : Nat
  /-- Bytes the kernel stored at the buffer pointer. -/
  written : List Nat
  /-- Value of the caller's `uint32` variable `size` after the call: the length the
  kernel reported through the pointer (the initial 0 if it reported none). -/
  size : Nat

/-- What one call of `ReadProcessMemory` leaves behind. -/
structure ReadProcessMemoryResult where
  /-- First return value of `Call`. -/
  r1 : Nat
  /-- Third return value of `Call`: the last error number. -/
  lastErr : Nat
  /-- Bytes the kernel stored at the buffer pointer. -/
  written : List Nat

/-- What one call of `GetExitCodeProcess` leaves behind. -/
structure GetExitCodeResult where
  /-- First return value of `Call`. -/
  r1 : Nat
  /-- Value of the caller's `uint32` variable `exitCode` after the call. -/
  exitCode : Nat

/-- The call `NtQueryInformationProcess` as the source makes it: handle, information
class and buffer length in bytes. -/
abbrev NtQueryInformationProcess := Handle → InfoClassFlags → Nat → NtQueryResult

/-- The call `ReadProcessMemory` as the source makes it: handle, base address and the
number of bytes to read. -/
abbrev ReadProcessMemory := Handle → Nat → Nat → ReadProcessMemoryResult

/-- The call `GetExitCodeProcess` as the source makes it: the handle. -/
abbrev GetExitCodeProcess := Handle → GetExitCodeResult

/-! ## The wrappers -/

/-- QueryInfo retrieves a variety of process's information depending on the info
class passed to this function. The third component of the result is the content of
the caller's buffer after the call. `ntQueryInformationProcess` is `none` when the
package variable is nil. -/
def QueryInfo (w : Winerrno) (ntQueryInformationProcess : Option NtQueryInformationProcess)
    (handle : Handle) (infoClass : InfoClassFlags) (buf : List Nat) :
    Outcome (Nat × Option GoError × List Nat) :=
  let size : Nat := 0
  match ntQueryInformationProcess with
  | some call =>
    match buf with
    | [] => .panicked "runtime error: index out of range [0] with length 0"
    | _ :: _ =>
      let res := call handle infoClass buf.length
      let errno := res.r1
      let size := res.size
      let buf := storeBytes buf res.written
      if errno ≠ w.Success then
        if errno = w.StatusInfoLengthMismatch ∨ errno = w.StatusBufferTooSmall then
          .returned (size, some .ErrNeedsReallocateBuffer, buf)
        else
          .returned (size, some (.Errorf
            ("NtQueryInformationProcess failed with status code 0x" ++ formatX errno)), buf)
      else
        .returned (size, none, buf)
  | none => .returned (size, none, buf)

/-- ReadMemory reads data from an area of memory in a specified process. A nil
slice is `none`. -/
def ReadMemory (rt : GoRuntime) (w : Winerrno) (readProcessMemory : ReadProcessMemory)
    (handle : Handle) (addr : Nat) (size : Nat) :
    Outcome (Option (List Nat) × Option GoError) :=
  match makeslice rt 1 size with
  | .panicked msg => .panicked msg
  | .returned buf =>
    match buf with
    | [] => .panicked "runtime error: index out of range [0] with length 0"
    | _ :: _ =>
      let res := readProcessMemory handle addr size
      let buf := storeBytes buf (res.written.take size)
      if res.r1 ≠ w.Success then
        .returned (some buf, none)
      else
        .returned (none, some (.SyscallError "ReadProcessMemory" res.lastErr))

/-- ReadMemoryUnicode reads data from an area of memory as a slice of Unicode code
points. A nil slice is `none`. -/
def ReadMemoryUnicode (rt : GoRuntime) (w : Winerrno) (readProcessMemory : ReadProcessMemory)
    (handle : Handle) (addr : Nat) (size : Nat) :
    Outcome (Option (List Nat) × Option GoError) :=
  match makeslice rt 2 size with
  | .panicked msg => .panicked msg
  | .returned buf =>
    match buf with
    | [] => .panicked "runtime error: index out of range [0] with length 0"
    | _ :: _ =>
      let res := readProcessMemory handle addr size
      let buf := bytesToUint16s (storeBytes (uint16sToBytes buf) (res.written.take size))
      if res.r1 ≠ w.Success then
        .returned (some buf, none)
      else
        .returned (none, some (.SyscallError "ReadProcessMemory" res.lastErr))

/-- IsAlive checks if the process identified by the specified handle is still in
running state. -/
def IsAlive (w : Winerrno) (getExitCodeProcess : GetExitCodeProcess) (handle : Handle) : Bool :=
  let res := getExitCodeProcess handle
  if res.r1 = w.Success then
    false
  else
    res.exitCode == procStatusStillActive

/-! ## Concrete environments used to evaluate the model -/

/-- The values the Windows headers give the three status constants. -/
def windowsErrno : Winerrno :=
  { Success := 0, StatusInfoLengthMismatch := 0xC0000004, StatusBufferTooSmall := 0xC0000023 }

/-- The allocation limit of the Go runtime on 64-bit Windows. -/
def windowsRuntime : GoRuntime := { maxAlloc := 2 ^ 48 }

/-- A kernel that fills the whole range it was asked to read with the byte 0x41 and
reports a non-zero return value. -/
def fillingRead : ReadProcessMemory :=
  fun _ _ nSize => { r1 := 1, lastErr := 0, written := List.replicate nSize 0x41 }

/-- A kernel whose read fails with last error 299 and stores nothing. -/
def failingRead : ReadProcessMemory :=
  fun _ _ _ => { r1 := 0, lastErr := 299, written := [] }

/-- A kernel that rejects every query with the length-mismatch status and reports
that 48 bytes are required. -/
def mismatchQuery : NtQueryInformationProcess :=
  fun _ _ _ => { r1 := 0xC0000004, written := [], size := 48 }

/-- An exit-code probe that succeeds and reports a still running process. -/
def runningProbe : GetExitCodeProcess := fun _ => { r1 := 1, exitCode := 259 }

/-! ## Access masks: theorems -/

theorem mem_enumerated_iff (a : DesiredAccess) :
    a ∈ enumerated ↔
      a = Terminate ∨ a = CreateThread ∨ a = VMOperation ∨ a = VMRead ∨ a = VMWrite ∨
      a = DupHandle ∨ a = CreateProcess ∨ a = SetQuota ∨ a = SetInformation ∨
      a = QueryInformation ∨ a = SuspendResume ∨ a = QueryLimitedInformation ∨
      a = AllAccess := by
  simp only [enumerated, singleBits, List.cons_append, List.nil_append, List.mem_cons,
    List.mem_singleton, List.not_mem_nil, or_false]

theorem String_unknown_iff (a : DesiredAccess) :
    DesiredAccess.String a = "UNKNOWN" ↔ a ∉ enumerated := by
  by_cases h : a ∈ enumerated
  · have h' := (mem_enumerated_iff a).1 h
    rcases h' with rfl | rfl | rfl | rfl | rfl | rfl | rfl | rfl | rfl | rfl | rfl | rfl | rfl <;>
      decide
  · have h' := h
    rw [mem_enumerated_iff] at h'
    simp only [not_or] at h'
    obtain ⟨h1, h2, h3, h4, h5, h6, h7, h8, h9, h10, h11, h12, h13⟩ := h'
    simp only [DesiredAccess.String, if_neg h1, if_neg h2, if_neg h3, if_neg h4, if_neg h5,
      if_neg h6, if_neg h7, if_neg h8, if_neg h9, if_neg h10, if_neg h11, if_neg h12,
      if_neg h13, h, not_false_eq_true]

theorem foldl_append_if {α β : Type} (c : α → Prop) [DecidablePred c] (f : α → β)
    (l : List α) (acc : List β) :
    l.foldl (fun fl m => if c m then fl ++ [f m] else fl) acc
      = acc ++ (l.filter (fun m => decide (c m))).map f := by
  induction l generalizing acc with
  | nil => simp
  | cons x xs ih =>
    rw [List.foldl_cons, ih]
    by_cases hx : c x
    · simp [List.filter_cons, hx]
    · simp [List.filter_cons, hx]

/-- One turn of the loop whose condition holds. -/
theorem flagsLoop_step (fuel : Nat) (access mask next : DesiredAccess) (flags : List GoString)
    (h : mask ≤ maxFlags) (hn : (mask * 2) % 2 ^ 32 = next) :
    flagsLoop (fuel + 1) access mask flags
      = flagsLoop fuel access next
          (if access &&& mask ≠ 0 then flags ++ [DesiredAccess.String mask] else flags) := by
  rw [flagsLoop, if_pos h, hn]

/-- The loop ends as soon as its condition fails. -/
theorem flagsLoop_exit (fuel : Nat) (access mask : DesiredAccess) (flags : List GoString)
    (h : ¬ mask ≤ maxFlags) :
    flagsLoop (fuel + 1) access mask flags = some flags := by
  rw [flagsLoop, if_neg h]

/-- With eleven or more units of fuel the loop started at `VMRead` runs to its end:
it visits exactly `loopMasks` and appends the name of each mask that meets `access`. -/
theorem flagsLoop_VMRead (k : Nat) (access : DesiredAccess) (flags : List GoString) :
    flagsLoop (k + 11) access VMRead flags
      = some (flags ++ (loopMasks.filter (fun m => decide (access &&& m ≠ 0))).map
          DesiredAccess.String) := by
  rw [← foldl_append_if (fun m => access &&& m ≠ 0) DesiredAccess.String loopMasks flags]
  simp only [loopMasks, List.foldl_cons, List.foldl_nil]
  rw [show k + 11 = (k + 10) + 1 from rfl,
    flagsLoop_step _ access VMRead 0x20 _ (by decide) (by decide),
    flagsLoop_step _ access 0x20 0x40 _ (by decide) (by decide),
    flagsLoop_step _ access 0x40 0x80 _ (by decide) (by decide),
    flagsLoop_step _ access 0x80 0x100 _ (by decide) (by decide),
    flagsLoop_step _ access 0x100 0x200 _ (by decide) (by decide),
    flagsLoop_step _ access 0x200 0x400 _ (by decide) (by decide),
    flagsLoop_step _ access 0x400 0x800 _ (by decide) (by decide),
    flagsLoop_step _ access 0x800 0x1000 _ (by decide) (by decide),
    flagsLoop_step _ access 0x1000 0x2000 _ (by decide) (by decide),
    flagsLoop_step _ access 0x2000 0x4000 _ (by decide) (by decide),
    flagsLoop_exit _ access 0x4000 _ (by decide)]
  rfl

/-- Closed form of `Flags` away from `AllAccess`: the names of the tested masks
that meet `access`, in the order they are tested. -/
theorem Flags_eq_filter (k : Nat) (access : DesiredAccess) (h : access ≠ AllAccess) :
    DesiredAccess.Flags (k + 11) access
      = some ((testedMasks.filter (fun m => decide (access &&& m ≠ 0))).map
          DesiredAccess.String) := by
  have hp := foldl_append_if (fun m => access &&& m ≠ 0) DesiredAccess.String
    [Terminate, CreateThread, VMOperation] []
  simp only [List.foldl_cons, List.foldl_nil] at hp
  unfold DesiredAccess.Flags
  simp only [if_neg h]
  rw [flagsLoop_VMRead, testedMasks, List.filter_append, List.map_append, hp,
    List.nil_append]

/-- Fuel beyond the eleven units the loop needs changes nothing. -/
theorem Flags_fuel (k : Nat) (access : DesiredAccess) :
    DesiredAccess.Flags (k + 11) access = DesiredAccess.Flags 11 access := by
  by_cases h : access = AllAccess
  · simp [DesiredAccess.Flags, h]
  · rw [Flags_eq_filter k access h, Flags_eq_filter 0 access h]

theorem lor_eq_zero_iff (x y : Nat) : x ||| y = 0 ↔ x = 0 ∧ y = 0 := by
  constructor
  · intro h
    have hb : ∀ i, (x.testBit i || y.testBit i) = false := by
      intro i
      rw [← Nat.testBit_or, h, Nat.zero_testBit]
    constructor
    · apply Nat.eq_of_testBit_eq
      intro i
      have := hb i
      simp only [Bool.or_eq_false_iff] at this
      rw [this.1, Nat.zero_testBit]
    · apply Nat.eq_of_testBit_eq
      intro i
      have := hb i
      simp only [Bool.or_eq_false_iff] at this
      rw [this.2, Nat.zero_testBit]
  · rintro ⟨rfl, rfl⟩
    rfl

/-- Testing the OR of the selected members of a list of pairwise disjoint masks
against one mask `m` finds out whether `m` is a selected member. -/
theorem orAll_filter_and (p : DesiredAccess → Bool) (m : DesiredAccess) (hm : m ≠ 0)
    (l : List DesiredAccess) (hd : ∀ x ∈ l, x ≠ m → x &&& m = 0) :
    orAll (l.filter p) &&& m ≠ 0 ↔ m ∈ l ∧ p m = true := by
  induction l with
  | nil => simp [orAll]
  | cons x xs ih =>
    have ih := ih (fun y hy => hd y (List.mem_cons_of_mem x hy))
    have hx := hd x (List.mem_cons_self x xs)
    have hstep : ∀ r : Nat, (x ||| r) &&& m ≠ 0 ↔ (x &&& m ≠ 0 ∨ r &&& m ≠ 0) := by
      intro r
      rw [Nat.and_distrib_right, Ne, lor_eq_zero_iff]
      tauto
    by_cases hpx : p x = true
    · have hf : orAll ((x :: xs).filter p) = x ||| orAll (xs.filter p) := by
        simp [List.filter_cons, hpx, orAll]
      rw [hf, hstep, ih, List.mem_cons]
      by_cases hxm : x = m
      · subst hxm
        simp [hpx, hm]
      · have hmx : ¬ m = x := fun h => hxm h.symm
        simp [hx hxm, hmx]
    · have hf : orAll ((x :: xs).filter p) = orAll (xs.filter p) := by
        simp [List.filter_cons, hpx]
      rw [hf, ih, List.mem_cons]
      by_cases hxm : m = x
      · subst hxm
        simp [hpx]
      · simp [hxm]

/-- The mask built from a set of enumerated single bits meets a tested mask exactly
when that mask is a member of the set. -/
theorem orAll_singleBits_and (p : DesiredAccess → Bool) (m : DesiredAccess)
    (hm : m ∈ 0x4 :: testedMasks) :
    orAll (singleBits.filter p) &&& m ≠ 0 ↔ m ∈ singleBits ∧ p m = true := by
  have hd : ∀ m ∈ 0x4 :: testedMasks, m ≠ 0 ∧ ∀ x ∈ singleBits, x ≠ m → x &&& m = 0 := by
    decide
  exact orAll_filter_and p m (hd m hm).1 singleBits (hd m hm).2

theorem orAll_singleBits_ne_AllAccess (p : DesiredAccess → Bool) :
    orAll (singleBits.filter p) ≠ AllAccess := by
  intro h
  have h4 := orAll_singleBits_and p 0x4 (List.mem_cons_self _ _)
  rw [h] at h4
  have hl : AllAccess &&& 0x4 ≠ 0 := by decide
  have hr : ¬ (0x4 ∈ singleBits) := by decide
  exact hr (h4.1 hl).1

theorem filter_tested_of_set (p : DesiredAccess → Bool) :
    testedMasks.filter (fun m => decide (orAll (singleBits.filter p) &&& m ≠ 0))
      = singleBits.filter p := by
  have hc : ∀ m ∈ testedMasks,
      decide (orAll (singleBits.filter p) &&& m ≠ 0) = (decide (m ∈ singleBits) && p m) := by
    intro m hm
    have := orAll_singleBits_and p m (List.mem_cons_of_mem _ hm)
    by_cases h1 : m ∈ singleBits <;> by_cases h2 : p m = true <;> simp_all
  rw [List.filter_congr hc]
  have hsplit : testedMasks = singleBits ++ [0x2000] := by decide
  rw [hsplit, List.filter_append]
  have h1 : singleBits.filter (fun m => decide (m ∈ singleBits) && p m) = singleBits.filter p := by
    apply List.filter_congr
    intro m hm
    simp [hm]
  have h2 : [0x2000].filter (fun m => decide (m ∈ singleBits) && p m) = [] := by
    have : ¬ (0x2000 ∈ singleBits) := by decide
    simp [List.filter_cons, this]
  rw [h1, h2, List.append_nil]

/-- With none of the twelve enumerated bits set, the only tested mask left is
0x2000, the last value the loop reaches below `maxFlags`; it alone decides between
the empty slice and the one-element slice holding the name `String` gives it. -/
theorem Flags_without_enumerated_bits (k : Nat) (access : DesiredAccess)
    (h : ∀ b ∈ singleBits, access &&& b = 0) :
    DesiredAccess.Flags (k + 11) access
      = some (if access &&& 0x2000 ≠ 0 then ["UNKNOWN"] else []) := by
  have hne : access ≠ AllAccess := by
    intro hA
    have h1 := h Terminate (by decide)
    rw [hA] at h1
    exact absurd h1 (by decide)
  have hsplit : testedMasks = singleBits ++ [0x2000] := by decide
  have h1 : singleBits.filter (fun m => decide (access &&& m ≠ 0)) = [] := by
    rw [List.filter_eq_nil_iff]
    intro b hb
    simp [h b hb]
  rw [Flags_eq_filter k access hne, hsplit, List.filter_append, h1, List.nil_append]
  by_cases h2 : access &&& 0x2000 = 0
  · simp [List.filter_cons, h2]
  · simp only [List.filter_cons, List.filter_nil, ne_eq, h2, not_false_eq_true, decide_True,
      if_true, List.map_cons, List.map_nil]
    rfl

/-- Claim C1. For every set of the twelve enumerated single-bit access rights, given
by its membership test `p`, `Flags` applied to the bitwise OR of the set returns the
names of exactly its members, each once, in the order of the enumeration, as soon as
the loop has the eleven units of fuel it needs. The names are the twelve spelled
out below; a single enumerated flag decodes to the one-element list of its name,
`Terminate | VMRead` to `TERMINATE, VM_READ` and `Terminate | VMRead | VMWrite` to
`TERMINATE, VM_READ, VM_WRITE`. -/
theorem Flags_enumerated_set (fuel : Nat) (hfuel : 11 ≤ fuel) (p : DesiredAccess → Bool) :
    DesiredAccess.Flags fuel (orAll (singleBits.filter p))
        = some ((singleBits.filter p).map DesiredAccess.String)
      ∧ singleBits.map DesiredAccess.String
          = ["TERMINATE", "CREATE_THREAD", "VM_OPERATION", "VM_READ", "VM_WRITE", "DUP_HANDLE",
             "CREATE_PROCESS", "SET_QUOTA", "SET_INFORMATION", "QUERY_INFORMATION",
             "SUSPEND_RESUME", "QUERY_LIMITED_INFORMATION"]
      ∧ (∀ b ∈ singleBits, DesiredAccess.Flags fuel b = some [DesiredAccess.String b])
      ∧ DesiredAccess.Flags fuel (Terminate ||| VMRead) = some ["TERMINATE", "VM_READ"]
      ∧ DesiredAccess.Flags fuel (Terminate ||| VMRead ||| VMWrite)
          = some ["TERMINATE", "VM_READ", "VM_WRITE"] := by
  obtain ⟨k, rfl⟩ := Nat.exists_eq_add_of_le' hfuel
  refine ⟨?_, by decide, ?_, ?_, ?_⟩
  · rw [Flags_eq_filter k _ (orAll_singleBits_ne_AllAccess p), filter_tested_of_set]
  · intro b hb
    rw [Flags_fuel]
    revert b
    decide
  · rw [Flags_fuel]
    decide
  · rw [Flags_fuel]
    decide

/-- Witness of C1: the set holding `Terminate` and `VMRead`, at fuel 11. -/
theorem Flags_enumerated_set_witness :
    11 ≤ 11 ∧
      DesiredAccess.Flags 11
          (orAll (singleBits.filter (fun m => m == Terminate || m == VMRead)))
        = some ["TERMINATE", "VM_READ"] :=
  ⟨by decide,
    (Flags_enumerated_set 11 (by decide) (fun m => m == Terminate || m == VMRead)).1⟩

/-- Claim C2. `Flags` applied to the `AllAccess` sentinel returns exactly the
one-element list `ALL_ACCESS`, whatever the fuel, although every one of the twelve
enumerated single bits is set in `AllAccess`. -/
theorem Flags_AllAccess (fuel : Nat) :
    DesiredAccess.Flags fuel AllAccess = some ["ALL_ACCESS"]
      ∧ AllAccess = 0x1FFFFF
      ∧ ∀ b ∈ singleBits, AllAccess &&& b ≠ 0 := by
  refine ⟨?_, by decide, by decide⟩
  unfold DesiredAccess.Flags
  simp only [if_true]
  rfl

/-- Claim C3, evaluated where it fails. The mask 0x2000 is a 32-bit value in which
none of the twelve enumerated single bits is set, and `Flags` returns for it the
one-element list `UNKNOWN` instead of the empty list: the loop bound `maxFlags`
lets the doubling reach 0x2000, a value `String` has no name for. -/
theorem Flags_unknown_bit (k : Nat) :
    DesiredAccess.Flags (k + 11) 0x2000 = some ["UNKNOWN"]
      ∧ (∀ b ∈ singleBits, 0x2000 &&& b = 0)
      ∧ 0x2000 < 2 ^ 32
      ∧ QueryLimitedInformation < 0x2000 ∧ 0x2000 ≤ maxFlags := by
  refine ⟨?_, by decide, by decide, by decide, by decide⟩
  rw [Flags_fuel]
  decide

/-- Claim C4. `String` is a total function. It returns `UNKNOWN` exactly when its
argument is not one of the thirteen enumerated constants, and on the thirteen
constants, which are pairwise distinct, it returns thirteen pairwise distinct names. -/
theorem String_total (a : DesiredAccess) :
    (DesiredAccess.String a = "UNKNOWN" ↔ a ∉ enumerated)
      ∧ enumerated.length = 13
      ∧ enumerated.Nodup
      ∧ (enumerated.map DesiredAccess.String).Nodup
      ∧ "UNKNOWN" ∉ enumerated.map DesiredAccess.String := by
  exact ⟨String_unknown_iff a, by decide, by decide, by decide, by decide⟩

/-! ## System call wrappers: theorems -/

theorem hexValue_hexDigit (d : Nat) (h : d < 16) : hexValue (hexDigit d) = d := by
  interval_cases d <;> rfl

theorem parseHex_snoc (cs : List Char) (c : Char) :
    parseHex (cs ++ [c]) = 16 * parseHex cs + hexValue c := by
  simp [parseHex, List.foldl_append]

/-- Reading back the digits gives the number, whenever the fuel allows for all of
its digits. -/
theorem parseHex_hexDigits (fuel n : Nat) (h : n < fuel) : parseHex (hexDigits fuel n) = n := by
  induction fuel generalizing n with
  | zero => omega
  | succ fuel ih =>
    unfold hexDigits
    by_cases hn : n < 16
    · rw [if_pos hn]
      simp [parseHex, hexValue_hexDigit n hn]
    · rw [if_neg hn, parseHex_snoc, ih (n / 16) (by omega),
        hexValue_hexDigit (n % 16) (Nat.mod_lt _ (by decide))]
      omega

/-- The text printed for `%X` determines the number printed. -/
theorem parseHex_formatX (n : Nat) : parseHex (formatX n).data = n :=
  parseHex_hexDigits (n + 1) n (Nat.lt_succ_self n)

theorem storeBytes_length (buf data : List Nat) : (storeBytes buf data).length = buf.length := by
  simp only [storeBytes, List.length_append, List.length_take, List.length_drop]
  omega

theorem uint16sToBytes_length (us : List Nat) : (uint16sToBytes us).length = 2 * us.length := by
  induction us with
  | nil => rfl
  | cons u us ih => simp only [uint16sToBytes, List.length_cons, ih]; omega

theorem bytesToUint16s_length (n : Nat) (bs : List Nat) (h : bs.length = 2 * n) :
    (bytesToUint16s bs).length = n := by
  induction n generalizing bs with
  | zero =>
    cases bs with
    | nil => rfl
    | cons b bs => simp at h
  | succ n ih =>
    match bs, h with
    | lo :: hi :: rest, h =>
      simp only [bytesToUint16s, List.length_cons]
      rw [ih rest (by simp only [List.length_cons] at h; omega)]

theorem makeslice_returned (rt : GoRuntime) (elemSize len : Nat) (h1 : len < 2 ^ 63)
    (h2 : elemSize * len ≤ rt.maxAlloc) :
    makeslice rt elemSize len = .returned (List.replicate len 0) := by
  unfold makeslice
  rw [if_neg]
  omega

theorem makeslice_panicked (rt : GoRuntime) (elemSize len : Nat)
    (h : 2 ^ 63 ≤ len ∨ rt.maxAlloc < elemSize * len) :
    makeslice rt elemSize len = .panicked "runtime error: makeslice: len out of range" := by
  unfold makeslice
  rw [if_pos h]

/-- A store that covers the whole slice leaves exactly the stored bytes. -/
theorem storeBytes_full (buf data : List Nat) (h : data.length = buf.length) :
    storeBytes buf data = data := by
  unfold storeBytes
  rw [← h, List.take_length, List.drop_eq_nil_of_le (Nat.le_of_eq h.symm), List.append_nil]

/-- On a reported success `ReadMemoryUnicode` returns `size` code units, that is
`2 * size` bytes, for the `size` bytes it asked the kernel to read, whenever the
allocation of the `size` code units is within the limits of the runtime. -/
theorem ReadMemoryUnicode_length (rt : GoRuntime) (w : Winerrno) (rpm : ReadProcessMemory)
    (handle : Handle) (addr size : Nat) (hsize : 1 ≤ size)
    (h63 : size < 2 ^ 63) (hmax : 2 * size ≤ rt.maxAlloc)
    (hok : (rpm handle addr size).r1 ≠ w.Success) :
    ∃ buf, ReadMemoryUnicode rt w rpm handle addr size = .returned (some buf, none)
      ∧ buf.length = size := by
  obtain ⟨n, rfl⟩ : ∃ n, size = n + 1 := ⟨size - 1, by omega⟩
  refine ⟨bytesToUint16s (storeBytes (uint16sToBytes (List.replicate (n + 1) 0))
    ((rpm handle addr (n + 1)).written.take (n + 1))), ?_, ?_⟩
  · simp only [ReadMemoryUnicode, makeslice_returned rt 2 (n + 1) h63 hmax,
      List.replicate_succ, if_pos hok]
  · apply bytesToUint16s_length
    rw [storeBytes_length, uint16sToBytes_length]
    simp

/-- Claim C5. Whatever status and size the one call of `NtQueryInformationProcess`
produces for a non-empty buffer, `QueryInfo` returns that size, and with it: no error
exactly when the status is `Success`; `ErrNeedsReallocateBuffer` exactly when the
status is `StatusInfoLengthMismatch` or `StatusBufferTooSmall` (two codes other than
`Success`); for every other status the `fmt.Errorf` error, which is not
`ErrNeedsReallocateBuffer`, whose message ends in the upper-case hexadecimal numeral
of the status, from which the status can be read back. -/
theorem QueryInfo_result (w : Winerrno) (call : NtQueryInformationProcess)
    (handle : Handle) (infoClass : InfoClassFlags) (buf : List Nat) (hbuf : buf ≠ [])
    (hLM : w.StatusInfoLengthMismatch ≠ w.Success)
    (hBTS : w.StatusBufferTooSmall ≠ w.Success) :
    ∃ err : Option GoError,
      QueryInfo w (some call) handle infoClass buf
          = .returned ((call handle infoClass buf.length).size, err,
              storeBytes buf (call handle infoClass buf.length).written)
        ∧ (err = none ↔ (call handle infoClass buf.length).r1 = w.Success)
        ∧ (err = some .ErrNeedsReallocateBuffer ↔
            ((call handle infoClass buf.length).r1 = w.StatusInfoLengthMismatch
              ∨ (call handle infoClass buf.length).r1 = w.StatusBufferTooSmall))
        ∧ ((call handle infoClass buf.length).r1 ≠ w.Success →
            (call handle infoClass buf.length).r1 ≠ w.StatusInfoLengthMismatch →
            (call handle infoClass buf.length).r1 ≠ w.StatusBufferTooSmall →
            err = some (.Errorf ("NtQueryInformationProcess failed with status code 0x"
              ++ formatX (call handle infoClass buf.length).r1)))
        ∧ parseHex (formatX (call handle infoClass buf.length).r1).data
            = (call handle infoClass buf.length).r1 := by
  obtain ⟨b, bs, rfl⟩ : ∃ b bs, buf = b :: bs := by
    cases buf with
    | nil => exact absurd rfl hbuf
    | cons b bs => exact ⟨b, bs, rfl⟩
  generalize hres : call handle infoClass (b :: bs).length = res
  have hres : call handle infoClass (bs.length + 1) = res := hres
  by_cases h0 : res.r1 = w.Success
  · refine ⟨none, ?_, ?_, ?_, ?_, parseHex_formatX _⟩
    · simp [QueryInfo, hres, h0]
    · simp [h0]
    · constructor
      · intro h
        exact absurd h (by simp)
      · rintro (h | h)
        · exact absurd (h ▸ h0 : w.StatusInfoLengthMismatch = w.Success) hLM
        · exact absurd (h ▸ h0 : w.StatusBufferTooSmall = w.Success) hBTS
    · intro h
      exact absurd h0 h
  · by_cases h1 : res.r1 = w.StatusInfoLengthMismatch ∨ res.r1 = w.StatusBufferTooSmall
    · refine ⟨some .ErrNeedsReallocateBuffer, ?_, ?_, ?_, ?_, parseHex_formatX _⟩
      · simp [QueryInfo, hres, h0, h1]
      · simp [h0]
      · simp [h1]
      · intro _ h2 h3
        rcases h1 with h | h
        · exact absurd h h2
        · exact absurd h h3
    · refine ⟨some (.Errorf ("NtQueryInformationProcess failed with status code 0x"
        ++ formatX res.r1)), ?_, ?_, ?_, ?_, parseHex_formatX _⟩
      · simp [QueryInfo, hres, h0, h1]
      · simp [h0]
      · simp [h1]
      · intro _ _ _
        rfl

/-- Witness of C5: the Windows status values, a one-byte buffer and a kernel that
answers with the length-mismatch status and the required size 48. -/
theorem QueryInfo_result_witness :
    ([0] : List Nat) ≠ []
      ∧ windowsErrno.StatusInfoLengthMismatch ≠ windowsErrno.Success
      ∧ windowsErrno.StatusBufferTooSmall ≠ windowsErrno.Success
      ∧ QueryInfo windowsErrno (some mismatchQuery) 1 BasicInformationClass [0]
          = .returned (48, some .ErrNeedsReallocateBuffer, [0]) := by
  refine ⟨by decide, by decide, by decide, ?_⟩
  obtain ⟨err, h, _, h2, _⟩ := QueryInfo_result windowsErrno mismatchQuery 1
    BasicInformationClass [0] (by decide) (by decide) (by decide)
  have he : err = some .ErrNeedsReallocateBuffer := h2.2 (Or.inl rfl)
  rw [h, he]
  rfl

/-- Claim C6. `GetExitCodeProcess` reports success by a non-zero return value, and
`winerrno.Success` is zero. Then `IsAlive` returns true if and only if the probe
reported success and the exit code it left equals the still-active value 259; when
the probe failed `IsAlive` returns false whatever the exit-code variable holds. The
result is a plain boolean: there is no error result. -/
theorem IsAlive_iff (w : Winerrno) (hS : w.Success = 0) (probe : GetExitCodeProcess)
    (handle : Handle) :
    (IsAlive w probe handle = true ↔
        (probe handle).r1 ≠ 0 ∧ (probe handle).exitCode = 259)
      ∧ ((probe handle).r1 = 0 → IsAlive w probe handle = false) := by
  unfold IsAlive
  simp only [hS, procStatusStillActive]
  by_cases h : (probe handle).r1 = 0
  · simp [h]
  · simp [h]

/-- Witness of C6: a probe that succeeds with exit code 259 on handle 1. -/
theorem IsAlive_iff_witness :
    windowsErrno.Success = 0 ∧ IsAlive windowsErrno runningProbe 1 = true :=
  ⟨rfl, (IsAlive_iff windowsErrno rfl runningProbe 1).1.2 ⟨by decide, rfl⟩⟩

/-- Claim C7. `ReadProcessMemory` reports success by a non-zero return value, and
`winerrno.Success` is zero. For every handle, address and size of at least one,
`ReadMemory` is all or nothing. The call is made exactly when `make` accepts the size;
a size it refuses panics before the call and nothing is returned. When the call
reported success, `ReadMemory` returns, with a nil error, the fresh zeroed slice of
length exactly `size` overwritten from its start by the bytes the kernel stored, which
is exactly the bytes read when the kernel stored all `size` of them. When the call
failed it returns the nil slice and the syscall error built from the last error of
the call. A returned slice therefore always has length `size`, comes with a nil
error and stems from a call that reported success. -/
theorem ReadMemory_all_or_nothing (rt : GoRuntime) (w : Winerrno) (hS : w.Success = 0)
    (rpm : ReadProcessMemory) (handle : Handle) (addr size : Nat) (hsize : 1 ≤ size) :
    ((2 ^ 63 ≤ size ∨ rt.maxAlloc < size) →
        ReadMemory rt w rpm handle addr size
          = .panicked "runtime error: makeslice: len out of range")
      ∧ (size < 2 ^ 63 → size ≤ rt.maxAlloc → (rpm handle addr size).r1 ≠ 0 →
          ReadMemory rt w rpm handle addr size
              = .returned (some (storeBytes (List.replicate size 0)
                  ((rpm handle addr size).written.take size)), none)
            ∧ (storeBytes (List.replicate size 0)
                  ((rpm handle addr size).written.take size)).length = size
            ∧ (size ≤ (rpm handle addr size).written.length →
                storeBytes (List.replicate size 0) ((rpm handle addr size).written.take size)
                  = (rpm handle addr size).written.take size))
      ∧ (size < 2 ^ 63 → size ≤ rt.maxAlloc → (rpm handle addr size).r1 = 0 →
          ReadMemory rt w rpm handle addr size
            = .returned (none,
                some (.SyscallError "ReadProcessMemory" (rpm handle addr size).lastErr)))
      ∧ (∀ buf err, ReadMemory rt w rpm handle addr size = .returned (some buf, err) →
          buf.length = size ∧ err = none ∧ (rpm handle addr size).r1 ≠ 0) := by
  obtain ⟨n, rfl⟩ : ∃ n, size = n + 1 := ⟨size - 1, by omega⟩
  have hpanic : (2 ^ 63 ≤ n + 1 ∨ rt.maxAlloc < n + 1) →
      ReadMemory rt w rpm handle addr (n + 1)
        = .panicked "runtime error: makeslice: len out of range" := by
    intro h
    have h' : 2 ^ 63 ≤ n + 1 ∨ rt.maxAlloc < 1 * (n + 1) := by omega
    simp only [ReadMemory, makeslice_panicked rt 1 (n + 1) h']
  have hok : n + 1 < 2 ^ 63 → n + 1 ≤ rt.maxAlloc → (rpm handle addr (n + 1)).r1 ≠ 0 →
      ReadMemory rt w rpm handle addr (n + 1)
        = .returned (some (storeBytes (List.replicate (n + 1) 0)
            ((rpm handle addr (n + 1)).written.take (n + 1))), none) := by
    intro h1 h2 h3
    simp only [ReadMemory, makeslice_returned rt 1 (n + 1) h1 (by omega),
      List.replicate_succ, hS]
    rw [if_pos h3]
  have hfail : n + 1 < 2 ^ 63 → n + 1 ≤ rt.maxAlloc → (rpm handle addr (n + 1)).r1 = 0 →
      ReadMemory rt w rpm handle addr (n + 1)
        = .returned (none,
            some (.SyscallError "ReadProcessMemory" (rpm handle addr (n + 1)).lastErr)) := by
    intro h1 h2 h3
    simp only [ReadMemory, makeslice_returned rt 1 (n + 1) h1 (by omega),
      List.replicate_succ, hS]
    rw [if_neg (by simpa using h3)]
  have hlen : (storeBytes (List.replicate (n + 1) 0)
      ((rpm handle addr (n + 1)).written.take (n + 1))).length = n + 1 := by
    rw [storeBytes_length, List.length_replicate]
  refine ⟨hpanic, ?_, hfail, ?_⟩
  · intro h1 h2 h3
    refine ⟨hok h1 h2 h3, hlen, ?_⟩
    intro hw
    apply storeBytes_full
    rw [List.length_take, List.length_replicate]
    omega
  · intro buf err hret
    by_cases hp : 2 ^ 63 ≤ n + 1 ∨ rt.maxAlloc < n + 1
    · rw [hpanic hp] at hret
      exact Outcome.noConfusion hret
    · have h1 : n + 1 < 2 ^ 63 := by omega
      have h2 : n + 1 ≤ rt.maxAlloc := by omega
      by_cases h3 : (rpm handle addr (n + 1)).r1 = 0
      · rw [hfail h1 h2 h3] at hret
        injection hret with hret
        injection hret with hbuf _
        exact Option.noConfusion hbuf
      · rw [hok h1 h2 h3] at hret
        injection hret with hret
        injection hret with hbuf herr
        injection hbuf with hbuf
        subst hbuf
        exact ⟨hlen, herr.symm, h3⟩

/-- Witness of C7: a three-byte read that the kernel completes, one it refuses, and
a size of `1 << 63` bytes that `make` refuses. -/
theorem ReadMemory_all_or_nothing_witness :
    windowsErrno.Success = 0 ∧ 1 ≤ 3
      ∧ ReadMemory windowsRuntime windowsErrno fillingRead 1 0 3
          = .returned (some [0x41, 0x41, 0x41], none)
      ∧ ReadMemory windowsRuntime windowsErrno failingRead 1 0 3
          = .returned (none, some (.SyscallError "ReadProcessMemory" 299))
      ∧ ReadMemory windowsRuntime windowsErrno fillingRead 1 0 (2 ^ 63)
          = .panicked "runtime error: makeslice: len out of range" :=
  ⟨rfl, by decide,
    ((ReadMemory_all_or_nothing windowsRuntime windowsErrno rfl fillingRead 1 0 3
      (by decide)).2.1 (by decide) (by decide) (by decide)).1,
    (ReadMemory_all_or_nothing windowsRuntime windowsErrno rfl failingRead 1 0 3
      (by decide)).2.2.1 (by decide) (by decide) rfl,
    (ReadMemory_all_or_nothing windowsRuntime windowsErrno rfl fillingRead 1 0 (2 ^ 63)
      (by decide)).1 (Or.inl (le_refl _))⟩

/-- Claim C9, evaluated where it fails. Asked for `size = 2`, `ReadMemoryUnicode`
requests 2 bytes from the kernel (which here fills every requested byte with 0x41)
and returns 2 code units, a slice of 4 bytes of which the second half was never
read; `ReadMemory` on the same input returns the 2 bytes that were read. -/
theorem ReadMemoryUnicode_extent :
    ReadMemoryUnicode windowsRuntime windowsErrno fillingRead 1 0 2
        = .returned (some [0x4141, 0], none)
      ∧ ReadMemory windowsRuntime windowsErrno fillingRead 1 0 2
        = .returned (some [0x41, 0x41], none)
      ∧ (fillingRead 1 0 2).written.length = 2
      ∧ 2 * ([0x4141, 0] : List Nat).length ≠ 2 := by
  decide

/-- Claim C10, evaluated where it fails. With the system call available, `QueryInfo`
on the empty buffer does not return: taking the address of the first element of the
buffer is an index out of range, before the call is made. -/
theorem QueryInfo_empty_buffer (w : Winerrno) (call : NtQueryInformationProcess)
    (handle : Handle) (infoClass : InfoClassFlags) :
    QueryInfo w (some call) handle infoClass []
      = .panicked "runtime error: index out of range [0] with length 0" := by
  rfl

end Process
